import Mathlib

/-!
Verification of the NeuroSpace on-chain program (`src/program/src/lib.rs`).

The program stores a prompt/response record in a single account using the
Borsh serialization format.  We model bytes as natural numbers (every byte
produced by the encoder is `< 256` by construction), account data as a
fixed-length list of bytes, and Rust strings as byte lists.  The Borsh
readers below mirror the field-by-field deserializers used by the program
(`u32` little-endian length prefixes, one-byte `Option` and `Bool`
discriminants, full-consumption check in `try_from_slice`), and the writer
mirrors `BorshSerialize::serialize` into a `&mut [u8]` slice, including the
partial write that `std::io::Write::write_all` performs before reporting
`WriteZero` when the slice is too small.
-/

/-- Errors surfaced by the program, mirroring the `solana_program::ProgramError`
values actually produced by `lib.rs` (`NotEnoughAccountKeys` from
`next_account_info`, `InvalidInstructionData` from instruction decoding,
`InvalidAccountData` for the writability and already-processed checks,
`IncorrectProgramId` for the owner check, and `BorshIoError` for Borsh
deserialize/serialize failures). -/
inductive ProgramError where
  | NotEnoughAccountKeys
  | InvalidInstructionData
  | InvalidAccountData
  | IncorrectProgramId
  | BorshIoError
deriving DecidableEq

/-- The persisted record, `struct PromptAccount` in `lib.rs`.  Rust `String`
fields are modelled as byte lists (their UTF-8 bytes). -/
structure PromptAccount where
  prompt : List Nat
  response : Option (List Nat)
  is_processed : Bool
deriving DecidableEq

/-- The instruction enum, `enum PromptInstruction` in `lib.rs`. -/
inductive PromptInstruction where
  | SubmitPrompt (prompt : List Nat)
  | SubmitResponse (response : List Nat)
deriving DecidableEq

/-- A caller-supplied account: mutability flag, owner (a `Pubkey`, modelled
as a natural number), and the fixed-capacity data slice. -/
structure AccountInfo where
  is_writable : Bool
  owner : Nat
  data : List Nat
deriving DecidableEq

/-- Little-endian `u32` encoding of a length, as written by Borsh
(`(len as u32).to_le_bytes()`). -/
def u32le (n : Nat) : List Nat :=
  [n % 256, n / 256 % 256, n / 65536 % 256, n / 16777216 % 256]

/-- Borsh encoding of a `String`: `u32` little-endian byte length, then the
bytes. -/
def encodeString (s : List Nat) : List Nat :=
  u32le s.length ++ s

/-- Borsh encoding of an `Option<String>`: one-byte discriminant (0 absent,
1 present) then the payload. -/
def encodeOption : Option (List Nat) → List Nat
  | none => [0]
  | some s => 1 :: encodeString s

/-- Borsh encoding of a `bool`: a single byte, 0 or 1. -/
def encodeBool (b : Bool) : List Nat :=
  [if b then 1 else 0]

/-- Borsh encoding of a `PromptAccount`: the fields in declaration order. -/
def encodeRecord (r : PromptAccount) : List Nat :=
  encodeString r.prompt ++ encodeOption r.response ++ encodeBool r.is_processed

/-- Read `n` raw bytes; fails when fewer than `n` remain (Borsh reports an
unexpected-end-of-input error instead of reading out of bounds). -/
def readBytes (n : Nat) (bs : List Nat) : Option (List Nat × List Nat) :=
  if n ≤ bs.length then some (bs.take n, bs.drop n) else none

/-- Read a little-endian `u32`; fails when fewer than 4 bytes remain. -/
def readU32 (bs : List Nat) : Option (Nat × List Nat) :=
  match bs with
  | b0 :: b1 :: b2 :: b3 :: rest =>
      some (b0 + 256 * b1 + 65536 * b2 + 16777216 * b3, rest)
  | _ => none

/-- Borsh `String` deserializer: length prefix, then that many bytes; fails
when the declared length exceeds the remaining input. -/
def readString (bs : List Nat) : Option (List Nat × List Nat) :=
  match readU32 bs with
  | some (n, rest) => readBytes n rest
  | none => none

/-- Borsh `bool` deserializer: one byte which must be 0 or 1. -/
def readBool (bs : List Nat) : Option (Bool × List Nat) :=
  match bs with
  | 0 :: rest => some (false, rest)
  | 1 :: rest => some (true, rest)
  | _ => none

/-- Borsh `Option<String>` deserializer: one-byte discriminant which must be
0 or 1, then the payload when present. -/
def readOption (bs : List Nat) : Option (Option (List Nat) × List Nat) :=
  match bs with
  | 0 :: rest => some (none, rest)
  | 1 :: rest => (readString rest).map fun p => (some p.1, p.2)
  | _ => none

/-- Borsh `PromptAccount` deserializer: the fields in declaration order,
returning the decoded record and the unconsumed suffix. -/
def readRecord (bs : List Nat) : Option (PromptAccount × List Nat) :=
  match readString bs with
  | none => none
  | some (p, bs1) =>
    match readOption bs1 with
    | none => none
    | some (r, bs2) =>
      match readBool bs2 with
      | none => none
      | some (f, bs3) => some (⟨p, r, f⟩, bs3)

/-- `PromptAccount::try_from_slice`: deserialize and require the whole input
to be consumed (Borsh errors with `ERROR_NOT_ALL_BYTES_READ` otherwise). -/
def try_from_slice (bs : List Nat) : Option PromptAccount :=
  match readRecord bs with
  | some (r, []) => some r
  | _ => none

/-- Borsh `PromptInstruction` deserializer: one-byte enum discriminant
(0 for `SubmitPrompt`, 1 for `SubmitResponse`) then the string field. -/
def readInstruction (bs : List Nat) : Option (PromptInstruction × List Nat) :=
  match bs with
  | 0 :: rest => (readString rest).map fun p => (PromptInstruction.SubmitPrompt p.1, p.2)
  | 1 :: rest => (readString rest).map fun p => (PromptInstruction.SubmitResponse p.1, p.2)
  | _ => none

/-- `PromptInstruction::try_from_slice`: deserialize and require full
consumption of the instruction payload. -/
def instructionFromSlice (bs : List Nat) : Option PromptInstruction :=
  match readInstruction bs with
  | some (i, []) => some i
  | _ => none

/-- `record.serialize(&mut &mut slot[..])`: write the encoded bytes at
offset 0 of the slot.  When the bytes fit, the suffix of the slot beyond
them is untouched.  When they do not fit, `std::io::Write::write_all` on a
`&mut [u8]` slice copies everything that fits before reporting `WriteZero`,
so the slot ends up holding the first `slot.length` bytes of the encoding
and the call returns a `BorshIoError`. -/
def serializeInto (bytes slot : List Nat) : Except ProgramError Unit × List Nat :=
  if bytes.length ≤ slot.length then
    (Except.ok (), bytes ++ slot.drop bytes.length)
  else
    (Except.error ProgramError.BorshIoError, bytes.take slot.length)

/-- `process_submit_prompt`: take the first account
(`next_account_info` fails with `NotEnoughAccountKeys` on an empty list),
check writability then ownership, build the fresh record
`{prompt, response: None, is_processed: false}` and serialize it into the
account data.  Returns the result together with the accounts after the
call. -/
def process_submit_prompt (program_id : Nat) (accounts : List AccountInfo)
    (prompt : List Nat) : Except ProgramError Unit × List AccountInfo :=
  match accounts with
  | [] => (Except.error ProgramError.NotEnoughAccountKeys, [])
  | acc :: rest =>
    if acc.is_writable = false then
      (Except.error ProgramError.InvalidAccountData, acc :: rest)
    else if acc.owner ≠ program_id then
      (Except.error ProgramError.IncorrectProgramId, acc :: rest)
    else
      let fresh : PromptAccount := ⟨prompt, none, false⟩
      let w := serializeInto (encodeRecord fresh) acc.data
      (w.1, { acc with data := w.2 } :: rest)

/-- `process_submit_response`: same account extraction and authority checks
as `process_submit_prompt`, then `try_from_slice` on the account data
(Borsh failure surfaces as `BorshIoError`), rejection with
`InvalidAccountData` when `is_processed` is already set, and otherwise
serialization of the updated record `{response: Some(text),
is_processed: true}` back into the slot. -/
def process_submit_response (program_id : Nat) (accounts : List AccountInfo)
    (response : List Nat) : Except ProgramError Unit × List AccountInfo :=
  match accounts with
  | [] => (Except.error ProgramError.NotEnoughAccountKeys, [])
  | acc :: rest =>
    if acc.is_writable = false then
      (Except.error ProgramError.InvalidAccountData, acc :: rest)
    else if acc.owner ≠ program_id then
      (Except.error ProgramError.IncorrectProgramId, acc :: rest)
    else
      match try_from_slice acc.data with
      | none => (Except.error ProgramError.BorshIoError, acc :: rest)
      | some r =>
        if r.is_processed then
          (Except.error ProgramError.InvalidAccountData, acc :: rest)
        else
          let updated : PromptAccount := { r with response := some response, is_processed := true }
          let w := serializeInto (encodeRecord updated) acc.data
          (w.1, { acc with data := w.2 } :: rest)

/-- `process_instruction`: decode the instruction payload
(`InvalidInstructionData` on failure, before any account access) and
dispatch to the matching handler. -/
def process_instruction (program_id : Nat) (accounts : List AccountInfo)
    (instruction_data : List Nat) : Except ProgramError Unit × List AccountInfo :=
  match instructionFromSlice instruction_data with
  | none => (Except.error ProgramError.InvalidInstructionData, accounts)
  | some (PromptInstruction.SubmitPrompt p) => process_submit_prompt program_id accounts p
  | some (PromptInstruction.SubmitResponse r) => process_submit_response program_id accounts r

/-- A record representable in the Borsh wire format: both text lengths fit
in the `u32` length prefix. -/
def validRecord (r : PromptAccount) : Prop :=
  r.prompt.length < 4294967296 ∧ (r.response.getD []).length < 4294967296

instance (r : PromptAccount) : Decidable (validRecord r) := by
  unfold validRecord
  infer_instance

/-- The UTF-8 bytes of "hello". -/
def helloBytes : List Nat := [104, 101, 108, 108, 111]

/-- The UTF-8 bytes of "world". -/
def worldBytes : List Nat := [119, 111, 114, 108, 100]

example : encodeRecord ⟨helloBytes, none, false⟩ =
    [5, 0, 0, 0, 104, 101, 108, 108, 111, 0, 0] := by decide

example : try_from_slice [5, 0, 0, 0, 104, 101, 108, 108, 111, 0, 0] =
    some ⟨helloBytes, none, false⟩ := by decide

deriving instance DecidableEq for Except

/-! ### Round-trip lemmas for the Borsh readers -/

theorem readBytes_exact (s rest : List Nat) :
    readBytes s.length (s ++ rest) = some (s, rest) := by
  unfold readBytes
  rw [if_pos (by simp)]
  rw [List.take_left, List.drop_left]

theorem readU32_u32le (n : Nat) (rest : List Nat) :
    readU32 (u32le n ++ rest) = some (n % 4294967296, rest) := by
  simp only [u32le, List.cons_append, List.nil_append, readU32, Option.some.injEq,
    Prod.mk.injEq, and_true]
  omega

theorem readString_encodeString (s rest : List Nat) (h : s.length < 4294967296) :
    readString (encodeString s ++ rest) = some (s, rest) := by
  have h1 : readU32 (u32le s.length ++ (s ++ rest)) = some (s.length, s ++ rest) := by
    rw [readU32_u32le, Nat.mod_eq_of_lt h]
  unfold readString encodeString
  rw [List.append_assoc, h1]
  exact readBytes_exact s rest

theorem readBool_encodeBool (b : Bool) (rest : List Nat) :
    readBool (encodeBool b ++ rest) = some (b, rest) := by
  cases b <;> rfl

theorem readOption_encodeOption (o : Option (List Nat)) (rest : List Nat)
    (h : (o.getD []).length < 4294967296) :
    readOption (encodeOption o ++ rest) = some (o, rest) := by
  cases o with
  | none => rfl
  | some s =>
    have hs : readString (encodeString s ++ rest) = some (s, rest) :=
      readString_encodeString s rest (by simpa using h)
    simp [encodeOption, readOption, hs]

theorem readRecord_encodeRecord (r : PromptAccount) (rest : List Nat) (h : validRecord r) :
    readRecord (encodeRecord r ++ rest) = some (r, rest) := by
  obtain ⟨h1, h2⟩ := h
  simp only [encodeRecord, List.append_assoc, readRecord,
    readString_encodeString r.prompt _ h1, readOption_encodeOption r.response _ h2,
    readBool_encodeBool]

theorem try_from_slice_encodeRecord (r : PromptAccount) (h : validRecord r) :
    try_from_slice (encodeRecord r) = some r := by
  have hr := readRecord_encodeRecord r [] h
  rw [List.append_nil] at hr
  unfold try_from_slice
  rw [hr]

/-! ### Consumption lemmas: every successful read returns a genuine suffix
of its input, and the consumed length matches the encoded length of the
value it returned.  These express that the readers only ever touch bytes
that are present in the buffer. -/

theorem readBytes_consumes (n : Nat) (bs s rest : List Nat)
    (h : readBytes n bs = some (s, rest)) : bs = s ++ rest ∧ s.length = n := by
  unfold readBytes at h
  split at h
  · simp only [Option.some.injEq, Prod.mk.injEq] at h
    obtain ⟨hs, hr⟩ := h
    subst hs; subst hr
    exact ⟨(List.take_append_drop n bs).symm, List.length_take_of_le (by assumption)⟩
  · cases h

theorem readU32_consumes (bs : List Nat) (n : Nat) (rest : List Nat)
    (h : readU32 bs = some (n, rest)) : ∃ pre, bs = pre ++ rest ∧ pre.length = 4 := by
  unfold readU32 at h
  split at h
  next b0 b1 b2 b3 r =>
    simp only [Option.some.injEq, Prod.mk.injEq] at h
    exact ⟨[b0, b1, b2, b3], by simp [h.2], rfl⟩
  next => cases h

theorem readString_consumes (bs s rest : List Nat) (h : readString bs = some (s, rest)) :
    ∃ pre, bs = pre ++ rest ∧ pre.length = 4 + s.length := by
  unfold readString at h
  split at h
  next n r hu =>
    obtain ⟨pre4, hbs, hl4⟩ := readU32_consumes bs n r hu
    obtain ⟨hr, hsl⟩ := readBytes_consumes n r s rest h
    refine ⟨pre4 ++ s, ?_, ?_⟩
    · rw [hbs, hr, List.append_assoc]
    · simp [hl4]
  next => cases h

theorem readBool_consumes (bs : List Nat) (b : Bool) (rest : List Nat)
    (h : readBool bs = some (b, rest)) : ∃ pre, bs = pre ++ rest ∧ pre.length = 1 := by
  unfold readBool at h
  split at h
  next r =>
    simp only [Option.some.injEq, Prod.mk.injEq] at h
    exact ⟨[0], by simp [h.2], rfl⟩
  next r =>
    simp only [Option.some.injEq, Prod.mk.injEq] at h
    exact ⟨[1], by simp [h.2], rfl⟩
  next => cases h

theorem readOption_consumes (bs : List Nat) (o : Option (List Nat)) (rest : List Nat)
    (h : readOption bs = some (o, rest)) :
    ∃ pre, bs = pre ++ rest ∧ pre.length = (encodeOption o).length := by
  unfold readOption at h
  split at h
  next r =>
    simp only [Option.some.injEq, Prod.mk.injEq] at h
    exact ⟨[0], by simp [h.2], by simp [← h.1, encodeOption]⟩
  next r =>
    simp only [Option.map_eq_some', Prod.exists] at h
    obtain ⟨s, r2, hS, hEq⟩ := h
    obtain ⟨pre, hr, hl⟩ := readString_consumes r s r2 hS
    simp only [Prod.mk.injEq] at hEq
    obtain ⟨ho, hrest⟩ := hEq
    subst ho; subst hrest
    refine ⟨1 :: pre, by simp [hr], by simp [hl, encodeOption, encodeString, u32le]; omega⟩
  next => cases h

theorem readRecord_consumes (bs : List Nat) (r : PromptAccount) (rest : List Nat)
    (h : readRecord bs = some (r, rest)) :
    ∃ pre, bs = pre ++ rest ∧ pre.length = (encodeRecord r).length := by
  unfold readRecord at h
  split at h
  next => cases h
  next p bs1 h1 =>
    split at h
    next => cases h
    next o bs2 h2 =>
      split at h
      next => cases h
      next f bs3 h3 =>
        simp only [Option.some.injEq, Prod.mk.injEq] at h
        obtain ⟨hrec, hrest⟩ := h
        subst hrest
        obtain ⟨pre1, e1, l1⟩ := readString_consumes bs p bs1 h1
        obtain ⟨pre2, e2, l2⟩ := readOption_consumes bs1 o bs2 h2
        obtain ⟨pre3, e3, l3⟩ := readBool_consumes bs2 f bs3 h3
        refine ⟨pre1 ++ (pre2 ++ pre3), ?_, ?_⟩
        · rw [e1, e2, e3]
          simp [List.append_assoc]
        · subst hrec
          simp [l1, l2, l3, encodeRecord, encodeString, encodeBool, u32le]
          omega

theorem six_le_encodeRecord_length (r : PromptAccount) : 6 ≤ (encodeRecord r).length := by
  rcases r with ⟨p, o, b⟩
  cases o <;>
    (simp [encodeRecord, encodeString, encodeOption, encodeBool, u32le]; try omega)

/-! ### Claim theorems -/

/-- C7: for every valid Record whose fields are representable in the wire
format, decoding the bytes produced by encoding it yields an equal Record
(round-trip law), and encoding is deterministic: equal Records encode to
equal bytes. -/
theorem encode_decode_roundtrip (r : PromptAccount) (h : validRecord r) :
    try_from_slice (encodeRecord r) = some r ∧
    ∀ r2 : PromptAccount, r2 = r → encodeRecord r2 = encodeRecord r :=
  ⟨try_from_slice_encodeRecord r h, fun r2 h2 => by rw [h2]⟩

/-- Witness for C7 at the record `{prompt: "hello", response: Some("world"),
is_processed: true}`. -/
theorem encode_decode_roundtrip_witness :
    try_from_slice (encodeRecord ⟨helloBytes, some worldBytes, true⟩) =
      some ⟨helloBytes, some worldBytes, true⟩ :=
  (encode_decode_roundtrip ⟨helloBytes, some worldBytes, true⟩ (by decide)).1

/-- C9: invoking either handler with an empty accounts list returns the
`NotEnoughAccountKeys` error synchronously (the `?` on `next_account_info`
is an ordinary early return, not a fault) and performs no state change. -/
theorem empty_accounts_clean_error (program_id : Nat) (text : List Nat) :
    process_submit_prompt program_id [] text =
      (Except.error ProgramError.NotEnoughAccountKeys, []) ∧
    process_submit_response program_id [] text =
      (Except.error ProgramError.NotEnoughAccountKeys, []) :=
  ⟨rfl, rfl⟩

/-- C10: a Submit that fails the writability check and a Respond that fails
the already-finalized check return the same concrete error value
(`ProgramError::InvalidAccountData`), so the invoker cannot tell these two
failure kinds apart from the returned error alone. -/
theorem notwritable_and_finalized_same_error :
    (process_submit_prompt 0 [⟨false, 0, [0]⟩] helloBytes).1 =
      Except.error ProgramError.InvalidAccountData ∧
    (process_submit_response 0 [⟨true, 0, [1, 0, 0, 0, 97, 1, 1, 0, 0, 0, 98, 1]⟩]
        worldBytes).1 =
      Except.error ProgramError.InvalidAccountData ∧
    (process_submit_prompt 0 [⟨false, 0, [0]⟩] helloBytes).1 =
      (process_submit_response 0 [⟨true, 0, [1, 0, 0, 0, 97, 1, 1, 0, 0, 0, 98, 1]⟩]
        worldBytes).1 := by
  refine ⟨by decide, by decide, by decide⟩

/-- C1 fails on the code: a Submit whose encoded record exceeds the slot
capacity returns an error, yet the slot is partially overwritten rather
than left byte-for-byte unchanged — `write_all` into the `&mut [u8]` slice
copies everything that fits before reporting `WriteZero`.  Here a 4-byte
zeroed slot ends up holding the first four bytes of the encoding,
`[5,0,0,0]`, instead of its prior zeros. -/
theorem submit_capacity_overflow_corrupts_slot :
    process_submit_prompt 0 [⟨true, 0, [0, 0, 0, 0]⟩] helloBytes =
      (Except.error ProgramError.BorshIoError, [⟨true, 0, [5, 0, 0, 0]⟩]) ∧
    ([5, 0, 0, 0] : List Nat) ≠ [0, 0, 0, 0] := by
  refine ⟨by decide, by decide⟩

/-- C5: for both handlers, a non-writable slot fails with
`InvalidAccountData` (the code's value for `NotWritable`) regardless of the
owner — the writability check runs first — and a writable slot with the
wrong owner fails with `IncorrectProgramId` (the code's value for
`WrongOwner`); both checks happen before any record logic and leave the
accounts unchanged. -/
theorem authority_checks_order_and_errors (program_id : Nat) (acc : AccountInfo)
    (rest : List AccountInfo) (text : List Nat) :
    (acc.is_writable = false →
      process_submit_prompt program_id (acc :: rest) text =
        (Except.error ProgramError.InvalidAccountData, acc :: rest) ∧
      process_submit_response program_id (acc :: rest) text =
        (Except.error ProgramError.InvalidAccountData, acc :: rest)) ∧
    (acc.is_writable = true → acc.owner ≠ program_id →
      process_submit_prompt program_id (acc :: rest) text =
        (Except.error ProgramError.IncorrectProgramId, acc :: rest) ∧
      process_submit_response program_id (acc :: rest) text =
        (Except.error ProgramError.IncorrectProgramId, acc :: rest)) := by
  constructor
  · intro hw
    constructor <;> simp [process_submit_prompt, process_submit_response, hw]
  · intro hw ho
    constructor <;> simp [process_submit_prompt, process_submit_response, hw, ho]

/-- Witness for C5: a slot that is both non-writable and wrongly owned
fails with the writability error, and a writable wrongly-owned slot fails
with the owner error. -/
theorem authority_checks_order_and_errors_witness :
    process_submit_prompt 0 [⟨false, 1, [0]⟩] helloBytes =
      (Except.error ProgramError.InvalidAccountData, [⟨false, 1, [0]⟩]) ∧
    process_submit_prompt 0 [⟨true, 1, [0]⟩] helloBytes =
      (Except.error ProgramError.IncorrectProgramId, [⟨true, 1, [0]⟩]) :=
  ⟨((authority_checks_order_and_errors 0 ⟨false, 1, [0]⟩ [] helloBytes).1 rfl).1,
   ((authority_checks_order_and_errors 0 ⟨true, 1, [0]⟩ [] helloBytes).2 rfl
      (by decide)).1⟩

/-- C6: an instruction payload that does not decode to one of the two
variants makes `process_instruction` fail with `InvalidInstructionData`
while the accounts are returned unchanged, for every accounts list — the
rejection happens before any slot access; in particular every payload whose
discriminant byte lies outside {0,1} is rejected. -/
theorem malformed_instruction_no_slot_access (program_id : Nat)
    (accounts : List AccountInfo) (bs : List Nat)
    (h : instructionFromSlice bs = none) :
    process_instruction program_id accounts bs =
      (Except.error ProgramError.InvalidInstructionData, accounts) ∧
    (∀ accounts2 : List AccountInfo, process_instruction program_id accounts2 bs =
      (Except.error ProgramError.InvalidInstructionData, accounts2)) ∧
    (∀ (b : Nat) (rest : List Nat), instructionFromSlice ((b + 2) :: rest) = none) := by
  refine ⟨?_, fun a2 => ?_, fun b r => rfl⟩ <;> simp [process_instruction, h]

/-- Witness for C6 at the payload `[2]`, whose discriminant byte is outside
{0,1}. -/
theorem malformed_instruction_no_slot_access_witness :
    process_instruction 0 [⟨true, 0, [0]⟩] [2] =
      (Except.error ProgramError.InvalidInstructionData, [⟨true, 0, [0]⟩]) :=
  (malformed_instruction_no_slot_access 0 [⟨true, 0, [0]⟩] [2] (by decide)).1

/-- C3: under the common preconditions, Respond on a slot whose bytes do
not decode to a Record fails with the Borsh decode error, and Respond on a
slot holding a Record with `is_processed = true` fails with
`InvalidAccountData` (the code's value for `AlreadyFinalized`); in both
cases the accounts — hence the slot's decoded content — are unchanged. -/
theorem respond_requires_submitted_state (program_id : Nat) (acc : AccountInfo)
    (rest : List AccountInfo) (response : List Nat)
    (hw : acc.is_writable = true) (ho : acc.owner = program_id) :
    (try_from_slice acc.data = none →
      process_submit_response program_id (acc :: rest) response =
        (Except.error ProgramError.BorshIoError, acc :: rest)) ∧
    (∀ r : PromptAccount, try_from_slice acc.data = some r → r.is_processed = true →
      process_submit_response program_id (acc :: rest) response =
        (Except.error ProgramError.InvalidAccountData, acc :: rest)) := by
  constructor
  · intro hd
    simp [process_submit_response, hw, ho, hd]
  · intro r hd hp
    simp [process_submit_response, hw, ho, hd, hp]

/-- Witness for C3: Respond on an empty (undecodable) slot fails with the
decode error, and a second Respond on a slot holding the finalized record
`{prompt: "a", response: Some("b"), is_processed: true}` fails with
`InvalidAccountData`, both leaving the accounts unchanged. -/
theorem respond_requires_submitted_state_witness :
    process_submit_response 0 [⟨true, 0, []⟩] worldBytes =
      (Except.error ProgramError.BorshIoError, [⟨true, 0, []⟩]) ∧
    process_submit_response 0 [⟨true, 0, [1, 0, 0, 0, 97, 1, 1, 0, 0, 0, 98, 1]⟩]
        worldBytes =
      (Except.error ProgramError.InvalidAccountData,
        [⟨true, 0, [1, 0, 0, 0, 97, 1, 1, 0, 0, 0, 98, 1]⟩]) :=
  ⟨(respond_requires_submitted_state 0 ⟨true, 0, []⟩ [] worldBytes rfl rfl).1 (by decide),
   (respond_requires_submitted_state 0 ⟨true, 0, [1, 0, 0, 0, 97, 1, 1, 0, 0, 0, 98, 1]⟩
      [] worldBytes rfl rfl).2 ⟨[97], some [98], true⟩ (by decide) rfl⟩

/-- C4: whatever the prior slot content, a Submit that passes the common
preconditions and fits in capacity succeeds and leaves the slot holding
exactly the fresh record `{prompt, response: None, is_processed: false}`
at offset 0 (the bytes beyond the encoding keep their old values, which the
layout treats as unused), overwriting whatever was there before. -/
theorem submit_overwrites_any_prior_content (program_id : Nat) (acc : AccountInfo)
    (rest : List AccountInfo) (prompt : List Nat)
    (hw : acc.is_writable = true) (ho : acc.owner = program_id)
    (hlen : prompt.length < 4294967296)
    (hcap : (encodeRecord ⟨prompt, none, false⟩).length ≤ acc.data.length) :
    process_submit_prompt program_id (acc :: rest) prompt =
      (Except.ok (),
        { acc with
            data := encodeRecord ⟨prompt, none, false⟩ ++
              acc.data.drop (encodeRecord ⟨prompt, none, false⟩).length } :: rest) ∧
    readRecord (encodeRecord ⟨prompt, none, false⟩ ++
        acc.data.drop (encodeRecord ⟨prompt, none, false⟩).length) =
      some (⟨prompt, none, false⟩,
        acc.data.drop (encodeRecord ⟨prompt, none, false⟩).length) := by
  constructor
  · simp [process_submit_prompt, hw, ho, serializeInto, hcap]
  · refine readRecord_encodeRecord ⟨prompt, none, false⟩ _ ?_
    unfold validRecord
    exact ⟨hlen, by simp⟩

/-- Witness for C4: submitting the prompt "p" over a slot that holds a
finalized record succeeds and overwrites it with the fresh record. -/
theorem submit_overwrites_any_prior_content_witness :
    process_submit_prompt 0 [⟨true, 0, [1, 0, 0, 0, 97, 1, 1, 0, 0, 0, 98, 1]⟩] [112] =
      (Except.ok (), [⟨true, 0, encodeRecord ⟨[112], none, false⟩ ++
        List.drop (encodeRecord ⟨[112], none, false⟩).length
          [1, 0, 0, 0, 97, 1, 1, 0, 0, 0, 98, 1]⟩]) ∧
    readRecord (encodeRecord ⟨[112], none, false⟩ ++
        List.drop (encodeRecord ⟨[112], none, false⟩).length
          [1, 0, 0, 0, 97, 1, 1, 0, 0, 0, 98, 1]) =
      some (⟨[112], none, false⟩,
        List.drop (encodeRecord ⟨[112], none, false⟩).length
          [1, 0, 0, 0, 97, 1, 1, 0, 0, 0, 98, 1]) :=
  submit_overwrites_any_prior_content 0 ⟨true, 0, [1, 0, 0, 0, 97, 1, 1, 0, 0, 0, 98, 1]⟩
    [] [112] rfl rfl (by decide) (by decide)

/-- C8: the decoder is total and in-bounds — reading `n` raw bytes from a
shorter buffer fails instead of reading out of bounds; any buffer shorter
than the minimum record size fails `try_from_slice`; a length prefix
exceeding the remaining bytes fails `readString`; a discriminant byte
outside {0,1} fails `readOption` and `readBool`; and every successful
`readRecord` consumed only bytes present in the buffer (the leftover is a
genuine suffix whose consumed prefix has exactly the encoded length). -/
theorem decode_total_and_in_bounds :
    (∀ (n : Nat) (bs : List Nat), bs.length < n → readBytes n bs = none) ∧
    (∀ bs : List Nat, bs.length < 6 → try_from_slice bs = none) ∧
    (∀ (bs : List Nat) (n : Nat) (rest : List Nat),
      readU32 bs = some (n, rest) → rest.length < n → readString bs = none) ∧
    (∀ (b : Nat) (rest : List Nat),
      readOption ((b + 2) :: rest) = none ∧ readBool ((b + 2) :: rest) = none) ∧
    (∀ (bs : List Nat) (r : PromptAccount) (rest : List Nat),
      readRecord bs = some (r, rest) →
      ∃ pre, bs = pre ++ rest ∧ pre.length = (encodeRecord r).length) := by
  refine ⟨?_, ?_, ?_, fun b rest => ⟨rfl, rfl⟩, readRecord_consumes⟩
  · intro n bs hlt
    unfold readBytes
    rw [if_neg (by omega)]
  · intro bs hlen
    unfold try_from_slice
    cases hR : readRecord bs with
    | none => rfl
    | some pr =>
      obtain ⟨r, rest⟩ := pr
      cases rest with
      | nil =>
        exfalso
        obtain ⟨pre, hbs, hpre⟩ := readRecord_consumes bs r [] hR
        have h6 := six_le_encodeRecord_length r
        rw [hbs] at hlen
        simp at hlen
        omega
      | cons a t => rfl
  · intro bs n rest hu hlt
    unfold readString
    rw [hu]
    show readBytes n rest = none
    unfold readBytes
    rw [if_neg (by omega)]

/-- Witness for C8: a one-byte buffer fails `try_from_slice`; a buffer whose
length prefix declares 7 bytes but supplies 1 fails `readString`; the
discriminant 2 fails `readOption`; reading 3 raw bytes from a 2-byte buffer
fails. -/
theorem decode_total_and_in_bounds_witness :
    readBytes 3 [0, 0] = none ∧
    try_from_slice [0] = none ∧
    readString [7, 0, 0, 0, 1] = none ∧
    readOption [2] = none := by
  refine ⟨decode_total_and_in_bounds.1 3 [0, 0] (by decide),
    decode_total_and_in_bounds.2.1 [0] (by decide),
    decode_total_and_in_bounds.2.2.1 [7, 0, 0, 0, 1] 7 [1] (by decide) (by decide),
    (decode_total_and_in_bounds.2.2.2.1 0 []).1⟩

/-- C2 fails on the code: on a zeroed slot of any capacity `n ≥ 11` (the
encoded size of the fresh "hello" record; smaller slots already fail the
Submit), `Submit("hello")` succeeds, but the subsequent
`Respond("world")` on the very same slot always returns a `BorshIoError`
instead of succeeding — when `n > 11` the slot's trailing padding makes
`try_from_slice` reject the leftover bytes, and when `n = 11` the grown
record no longer fits the slot. -/
theorem submit_then_respond_always_fails (n : Nat) (h : 11 ≤ n) :
    (process_submit_prompt 0 [⟨true, 0, List.replicate n 0⟩] helloBytes).1 =
      Except.ok () ∧
    (process_submit_response 0
        (process_submit_prompt 0 [⟨true, 0, List.replicate n 0⟩] helloBytes).2
        worldBytes).1 =
      Except.error ProgramError.BorshIoError := by
  have hlen : (encodeRecord ⟨helloBytes, none, false⟩).length = 11 := by decide
  have hsub : process_submit_prompt 0 [⟨true, 0, List.replicate n 0⟩] helloBytes =
      (Except.ok (),
        [⟨true, 0, encodeRecord ⟨helloBytes, none, false⟩ ++ List.replicate (n - 11) 0⟩]) := by
    simp [process_submit_prompt, serializeInto, hlen, h, List.drop_replicate]
  refine ⟨by rw [hsub], ?_⟩
  rw [hsub]
  rcases Nat.eq_or_lt_of_le h with heq | hlt
  · subst heq
    decide
  · have hrest : List.replicate (n - 11) (0 : Nat) ≠ [] := by
      intro hc
      have hc2 := congrArg List.length hc
      simp at hc2
      omega
    have hread : readRecord (encodeRecord ⟨helloBytes, none, false⟩ ++
        List.replicate (n - 11) 0) =
        some (⟨helloBytes, none, false⟩, List.replicate (n - 11) 0) :=
      readRecord_encodeRecord ⟨helloBytes, none, false⟩ _ (by decide)
    have htfs : try_from_slice (encodeRecord ⟨helloBytes, none, false⟩ ++
        List.replicate (n - 11) 0) = none := by
      unfold try_from_slice
      rw [hread]
      cases hrep : List.replicate (n - 11) (0 : Nat) with
      | nil => exact absurd hrep hrest
      | cons a t => rfl
    simp [process_submit_response, htfs]

/-- Witness for C2 at capacity 20, large enough to hold the final record
the claim expects: Submit succeeds and Respond still fails. -/
theorem submit_then_respond_always_fails_witness :
    (process_submit_prompt 0 [⟨true, 0, List.replicate 20 0⟩] helloBytes).1 =
      Except.ok () ∧
    (process_submit_response 0
        (process_submit_prompt 0 [⟨true, 0, List.replicate 20 0⟩] helloBytes).2
        worldBytes).1 =
      Except.error ProgramError.BorshIoError :=
  submit_then_respond_always_fails 20 (by decide)
